import Mathlib

/-!
Shallow embedding of the raw-memory growable array from src/vector.h:
the RawMemory block manager and the Vector container built on it.

Two complementary models are used.

The value-level model (VecState) tracks the storage block (address and
capacity) plus the list of live element values, for T = Nat with default
value 0.  It embeds the constructors, copy assignment, Reserve, Resize
(the while loop fuel-indexed, since its termination is exactly what is
at issue), EmplaceBack, and the exception behaviour of the reallocating
EmplaceBack path (elements whose copy constructor throws).

The slot-level model (MemState) tracks every slot of the block as
`Option Nat` (`none` = raw, uninitialized memory; `some v` = a live,
constructed object holding v), so that operations which construct,
destruct, read or move slots can detect undefined behaviour: an
operation returns `none` when the C++ code destructs or reads a slot
that holds no live object, reads out of bounds, or hands an inverted
range to std::move_backward.  PopBack, Emplace and Erase are embedded
at this level.
-/

namespace CppVec

/-- Model of RawMemory<T>: an owning address (`none` = nullptr) and a
capacity in element slots.  The address of a non-empty allocation is
modelled abstractly by its requested capacity. -/
structure RawMemory where
  addr : Option Nat
  capacity : Nat
deriving DecidableEq

/-- RawMemory::Allocate: `operator new` for n slots when n is not 0,
nullptr when n = 0. -/
def RawMemory.Allocate (n : Nat) : Option Nat :=
  if n = 0 then none else some n

/-- The RawMemory(size_t capacity) constructor: buffer = Allocate(capacity). -/
def RawMemory.create (n : Nat) : RawMemory :=
  ⟨RawMemory.Allocate n, n⟩

/-- The RawMemory default constructor: buffer = nullptr, capacity = 0. -/
def RawMemory.empty : RawMemory :=
  ⟨none, 0⟩

/-- RawMemory::Swap: exchanges buffer and capacity of the two blocks.
The result pair is (new this, new other). -/
def RawMemory.swap (a b : RawMemory) : RawMemory × RawMemory :=
  (b, a)

/-- The RawMemory move constructor: members start at their default
initializers (nullptr, 0), then Swap(other).  Result is
(constructed object, source after the move). -/
def RawMemory.moveCtor (other : RawMemory) : RawMemory × RawMemory :=
  RawMemory.swap RawMemory.empty other

/-- The RawMemory move assignment operator on distinct objects:
Swap(rhs).  Result is (new lhs, rhs after the move). -/
def RawMemory.moveAssign (lhs rhs : RawMemory) : RawMemory × RawMemory :=
  RawMemory.swap lhs rhs

/-- Value-level model of Vector<T> for T = Nat: the owned block and the
list of live element values (size = elems.length). -/
structure VecState where
  storage : RawMemory
  elems : List Nat
deriving DecidableEq

/-- The Vector default constructor: default RawMemory, size 0. -/
def VecState.mkEmpty : VecState :=
  ⟨RawMemory.empty, []⟩

/-- The Vector(size_t size) constructor: allocates a block of exactly
`size` slots and value-constructs `size` elements (default value 0). -/
def VecState.mkSized (n : Nat) : VecState :=
  ⟨RawMemory.create n, List.replicate n 0⟩

/-- The Vector copy constructor: allocates a block of exactly
`other.size_` slots and copy-constructs the elements. -/
def VecState.copyCtor (other : VecState) : VecState :=
  ⟨RawMemory.create other.elems.length, other.elems⟩

/-- std::copy_n(src, n, dst) on whole buffers: the first n values of
src overwrite the first n slots of dst. -/
def copyN (src dst : List Nat) (n : Nat) : List Nat :=
  src.take n ++ dst.drop n

/-- The Vector copy assignment operator on distinct objects.
If rhs.size_ > Capacity(): builds a full copy and swaps it in.
Otherwise reuses the block in place: when shrinking, copy_n over the
first rhs.size_ values then destroy the surplus tail; when growing,
copy_n over the first size_ values then uninitialized_copy the rest. -/
def VecState.copyAssign (lhs rhs : VecState) : VecState :=
  if rhs.elems.length > lhs.storage.capacity then
    VecState.copyCtor rhs
  else if rhs.elems.length < lhs.elems.length then
    ⟨lhs.storage, (copyN rhs.elems lhs.elems rhs.elems.length).take rhs.elems.length⟩
  else
    ⟨lhs.storage, copyN rhs.elems lhs.elems lhs.elems.length ++ rhs.elems.drop lhs.elems.length⟩

/-- Vector::Reserve: no-op when new_capacity <= Capacity(), otherwise
allocates a block of exactly new_capacity slots and transfers the live
elements into it. -/
def VecState.Reserve (v : VecState) (newCapacity : Nat) : VecState :=
  if newCapacity ≤ v.storage.capacity then v
  else ⟨RawMemory.create newCapacity, v.elems⟩

/-- The while loop inside Vector::Resize, fuel-indexed.  `capVar` is
the local variable `capacity`, computed once before the loop and never
updated; each iteration runs `Reserve(capacity * 2)` with that same
value.  `none` means the given fuel was exhausted without the loop
terminating. -/
def VecState.resizeLoop (capVar newSize : Nat) : Nat → VecState → Option VecState
  | 0, _ => none
  | fuel + 1, v =>
    if newSize > v.storage.capacity then
      VecState.resizeLoop capVar newSize fuel (v.Reserve (capVar * 2))
    else
      some v

/-- Vector::Resize, fuel-indexed through its while loop.  Shrinking
destroys the tail; growing computes `capacity = Size() == 0 ? 1 :
Capacity()`, runs the loop, then value-constructs the new slots; the
size is then set to new_size. -/
def VecState.Resize (fuel : Nat) (v : VecState) (newSize : Nat) : Option VecState :=
  if newSize < v.elems.length then
    some ⟨v.storage, v.elems.take newSize⟩
  else if newSize > v.elems.length then
    match VecState.resizeLoop (if v.elems.length = 0 then 1 else v.storage.capacity) newSize fuel v with
    | some w => some ⟨w.storage, w.elems ++ List.replicate (newSize - w.elems.length) 0⟩
    | none => none
  else
    some v

/-- Vector::EmplaceBack in the no-exception case: construct in the next
free slot when size_ < Capacity(), otherwise allocate a block of
`size_ == 0 ? 1 : Capacity() * 2` slots, construct the new element at
index size_ there, transfer the old elements, and swap the blocks. -/
def VecState.EmplaceBack (v : VecState) (x : Nat) : VecState :=
  if v.elems.length < v.storage.capacity then
    ⟨v.storage, v.elems ++ [x]⟩
  else
    ⟨RawMemory.create (if v.elems.length = 0 then 1 else v.storage.capacity * 2), v.elems ++ [x]⟩

/-- The state after n EmplaceBack calls starting from the default
(empty, capacity 0) vector. -/
def VecState.appendN : Nat → VecState
  | 0 => VecState.mkEmpty
  | n + 1 => (VecState.appendN n).EmplaceBack n

/-- std::uninitialized_copy_n of a buffer of elements whose copy
constructor may throw: `copyOk x = false` means copying the value x
throws.  On a throw the algorithm destroys the copies it made itself
and propagates (`none`); otherwise it returns the copied values. -/
def uninitCopyN (copyOk : Nat → Bool) : List Nat → Option (List Nat)
  | [] => some []
  | x :: rest =>
    if copyOk x then (uninitCopyN copyOk rest).map (fun l => x :: l) else none

/-- Vector::EmplaceBack for an element type whose copy constructor may
throw and whose move constructor is not noexcept (so SafeMemoryTransfer
takes the uninitialized_copy_n path).  On success: the new state.  On a
throw during FullSafeMemoryTransfer: `.error leaked`, where `leaked`
lists the objects that were constructed in the new, not-yet-installed
block and are NOT destructed before the exception leaves EmplaceBack.
The new element was placement-constructed at new_data + size_ before
the transfer, and no handler in EmplaceBack destructs it. -/
def VecState.EmplaceBackThrowing (copyOk : Nat → Bool) (v : VecState) (x : Nat) :
    Except (List Nat) VecState :=
  if v.elems.length < v.storage.capacity then
    .ok ⟨v.storage, v.elems ++ [x]⟩
  else
    match uninitCopyN copyOk v.elems with
    | some copied =>
        .ok ⟨RawMemory.create (if v.elems.length = 0 then 1 else v.storage.capacity * 2),
             copied ++ [x]⟩
    | none => .error [x]

/-- Slot-level model of the Vector block: one entry per slot of the
allocated block (`none` = raw memory, `some v` = a live object), plus
the live count size_. -/
structure MemState where
  slots : List (Option Nat)
  size : Nat
deriving DecidableEq

/-- Capacity of the slot-level state: the number of slots in the block. -/
def MemState.cap (v : MemState) : Nat :=
  v.slots.length

/-- Read of a slot as an lvalue of T: yields the held value when the
slot is in bounds and holds a live object, `none` (undefined
behaviour) when the slot is out of bounds or uninitialized. -/
def MemState.readSlot (v : MemState) (i : Nat) : Option Nat :=
  v.slots.getD i none

/-- The values of the first n slots, provided all of them are live;
`none` (undefined behaviour) when any of them is raw memory.  Used for
bulk moves and copies out of the live region. -/
def liveVals : List (Option Nat) → Option (List Nat)
  | [] => some []
  | none :: _ => none
  | some x :: rest => (liveVals rest).map (fun l => x :: l)

/-- The well-formedness invariant of Vector: size_ <= capacity, the
first size_ slots hold live objects, and every slot from size_ on is
uninitialized. -/
def MemState.wf (v : MemState) : Bool :=
  decide (v.size ≤ v.slots.length) &&
    (List.range v.slots.length).all fun i =>
      if i < v.size then (v.slots.getD i none).isSome else (v.slots.getD i none).isNone

/-- Vector::PopBack: `std::destroy_at(data_.GetAddress() + size_); --size_;`.
The destructor call targets the slot at index size_; destructing a slot
that is out of bounds or holds no live object is undefined behaviour
(`none`). -/
def MemState.PopBack (v : MemState) : Option MemState :=
  match v.slots.getD v.size none with
  | some _ => some ⟨v.slots.set v.size none, v.size - 1⟩
  | none => none

/-- Vector::Emplace at element index posInd (pos = begin + posInd),
inserting the value x.  Asserts posInd <= size_.  With spare capacity:
construct at end() from the moved lvalue *(end() - 1) (undefined
behaviour when size_ = 0, since end() - 1 is before the buffer), then
std::move_backward(begin() + posInd, end() - 1, end()) (undefined
behaviour when posInd = size_, since the range has first past last),
then assign x at posInd.  At full capacity: allocate
`Size() == 0 ? 1 : Capacity() * 2` slots, construct x at posInd in the
new block, transfer the elements before and after posInd, destroy the
old elements and swap blocks. -/
def MemState.Emplace (v : MemState) (posInd x : Nat) : Option MemState :=
  if posInd > v.size then none
  else if v.size < v.cap then
    match (if v.size = 0 then none else v.readSlot (v.size - 1)) with
    | none => none
    | some _ =>
      if posInd = v.size then none
      else
        some ⟨v.slots.take posInd ++ some x :: ((v.slots.drop posInd).take (v.size - posInd))
                ++ v.slots.drop (v.size + 1),
              v.size + 1⟩
  else
    match liveVals (v.slots.take v.size) with
    | none => none
    | some vals =>
      some ⟨(vals.take posInd).map some ++ some x :: ((vals.drop posInd).map some)
              ++ List.replicate ((if v.size = 0 then 1 else v.cap * 2) - (v.size + 1)) none,
            v.size + 1⟩

/-- Vector::Erase at element index i (pos = begin + i).  Asserts
i < size_.  Shifts the elements after i one slot left by move
assignment, destructs the vacated last slot, decrements size_. -/
def MemState.Erase (v : MemState) (i : Nat) : Option MemState :=
  if i < v.size then
    match liveVals (v.slots.take v.size) with
    | none => none
    | some vals =>
      some ⟨(vals.take i ++ vals.drop (i + 1)).map some
              ++ List.replicate (v.cap - (v.size - 1)) none,
            v.size - 1⟩
  else none

/-- C1: the claim says PopBack on a non-empty vector destructs the
element at index size_ - 1.  The code instead calls
std::destroy_at(data_.GetAddress() + size_), the slot at index size_:
on a vector of one element with capacity one that slot is out of
bounds, so the operation is undefined behaviour (and the element at
index 0 is never destructed). -/
theorem c1_popBack_destroys_wrong_slot :
    MemState.wf ⟨[some 5], 1⟩ = true ∧ MemState.PopBack ⟨[some 5], 1⟩ = none := by
  constructor <;> rfl

/-- C9: the claim says every public operation run under its
precondition preserves the liveness invariant.  PopBack on the
well-formed one-element state with capacity two destructs the
uninitialized slot at index 1 instead of the live element at index 0:
undefined behaviour, so the invariant is not preserved. -/
theorem c9_popBack_breaks_invariant :
    MemState.wf ⟨[some 1, none], 1⟩ = true ∧
      MemState.PopBack ⟨[some 1, none], 1⟩ = none := by
  constructor <;> rfl

/-- C3: the claim says insert at end() appends on every vector,
including ones with spare capacity.  On the vector [1] with capacity 2
(spare capacity, size 1), Emplace at position index 1 = size_ reaches
std::move_backward(begin() + 1, end() - 1, end()) whose range has
first past last: undefined behaviour instead of an append. -/
theorem c3_emplace_at_end_ub :
    MemState.wf ⟨[some 1, none], 1⟩ = true ∧
      MemState.Emplace ⟨[some 1, none], 1⟩ 1 7 = none := by
  constructor <;> rfl

/-- C7: the claim says erase after insert at any position p in
[begin, end] restores the original sequence.  For S = [4, 6] with
capacity 3 and p = end(), the insert itself hits the inverted
std::move_backward range (undefined behaviour), so the round trip does
not yield S. -/
theorem c7_insert_erase_ub :
    MemState.wf ⟨[some 4, some 6, none], 2⟩ = true ∧
      (MemState.Emplace ⟨[some 4, some 6, none], 2⟩ 2 9).bind
        (fun w => w.Erase 2) = none := by
  constructor <;> rfl

/-- C5: the claim says that when a copy throws during reallocating
growth, everything already constructed in the new block is destructed
before the error propagates.  EmplaceBack on a full vector [5]
(size = capacity = 1) with an element type whose copy of the value 5
throws: the new element 7 was already placement-constructed at
new_data + size_ and EmplaceBack has no handler destructing it, so the
object 7 leaks (the error payload lists the leaked objects, which the
claim requires to be empty). -/
theorem c5_emplaceBack_leaks_new_element :
    VecState.EmplaceBackThrowing (fun y => y != 5) ⟨RawMemory.create 1, [5]⟩ 7 =
      Except.error [7] := by
  rfl

/-- C4 counterexample: after move assignment of the RawBlock with
address 3 and capacity 3 into the block with address 2 and capacity 2,
the source is NOT left with a null address and zero capacity: the
operator swaps, so the source holds the previous block of the target. -/
theorem c4_moveAssign_source_not_empty :
    ¬ ((RawMemory.moveAssign ⟨some 2, 2⟩ ⟨some 3, 3⟩).2.addr = none ∧
       (RawMemory.moveAssign ⟨some 2, 2⟩ ⟨some 3, 3⟩).2.capacity = 0) := by
  decide

/-- C4 amended: move construction of a RawBlock leaves the source
empty (null address, zero capacity), while move assignment swaps the
two blocks, so the source ends up holding the previous address and
capacity of the target (empty only when the target was empty). -/
theorem c4_move_semantics (a b : RawMemory) :
    RawMemory.moveCtor a = (a, RawMemory.empty) ∧
      RawMemory.moveAssign a b = (b, a) := by
  constructor <;> rfl

theorem resizeLoop_stuck (fuel : Nat) :
    ∀ v : VecState, v.storage.capacity = 2 →
      VecState.resizeLoop 1 3 fuel v = none := by
  induction fuel with
  | zero => intro v h; rfl
  | succ n ih =>
    intro v h
    have hres : v.Reserve (1 * 2) = v := by
      simp [VecState.Reserve, h]
    have hstep : VecState.resizeLoop 1 3 (n + 1) v =
        VecState.resizeLoop 1 3 n (v.Reserve (1 * 2)) := by
      simp [VecState.resizeLoop, h]
    rw [hstep, hres]
    exact ih v h

/-- C2: the claim says Resize(new_size) terminates.  On the default
empty vector (size 0, capacity 0) with new_size = 3, the loop
`while (new_size > Capacity()) Reserve(capacity * 2)` re-reads the
local `capacity` variable (1 here) on every iteration, so capacity
reaches 2 after the first Reserve and every later Reserve(2) is a
no-op: no amount of fuel makes the loop finish. -/
theorem c2_resize_never_terminates (fuel : Nat) :
    VecState.Resize fuel VecState.mkEmpty 3 = none := by
  have hloop : VecState.resizeLoop 1 3 fuel ⟨RawMemory.empty, []⟩ = none := by
    cases fuel with
    | zero => rfl
    | succ n =>
      have hstep : VecState.resizeLoop 1 3 (n + 1) (⟨RawMemory.empty, []⟩ : VecState) =
          VecState.resizeLoop 1 3 n ((⟨RawMemory.empty, []⟩ : VecState).Reserve (1 * 2)) := by
        simp [VecState.resizeLoop, RawMemory.empty]
      rw [hstep]
      exact resizeLoop_stuck n _ rfl
  simp [VecState.Resize, VecState.mkEmpty, hloop]

/-- C6: copy assignment makes the target element-wise equal to the
source with the source size; the block is reused unchanged when the
source size fits in the current capacity, and otherwise the operator
swaps in a freshly built full copy (whose block has exactly the source
size as capacity). -/
theorem c6_copyAssign_correct (a b : VecState) :
    (a.copyAssign b).elems = b.elems ∧
      (a.copyAssign b).storage =
        (if b.elems.length ≤ a.storage.capacity then a.storage
         else RawMemory.create b.elems.length) := by
  unfold VecState.copyAssign VecState.copyCtor copyN
  by_cases h1 : b.elems.length > a.storage.capacity
  · simp [h1, Nat.not_le.mpr h1]
  · have h1le : b.elems.length ≤ a.storage.capacity := Nat.not_lt.mp h1
    by_cases h2 : b.elems.length < a.elems.length
    · simp only [h1, if_false, h2, if_true, h1le, if_pos, ite_true, ite_false]
      refine ⟨?_, by simp [h1le]⟩
      rw [List.take_length, List.take_left]
    · simp only [h1, if_false, h2, ite_false]
      refine ⟨?_, by simp [h1le]⟩
      rw [List.drop_length, List.append_nil, List.take_append_drop]

theorem appendN_length (n : Nat) : (VecState.appendN n).elems.length = n := by
  induction n with
  | zero => rfl
  | succ k ih =>
    simp only [VecState.appendN, VecState.EmplaceBack]
    split <;> simp [ih]

theorem appendN_capacity (n : Nat) :
    (VecState.appendN n).storage.capacity = if n = 0 then 0 else 2 ^ Nat.clog 2 n := by
  induction n with
  | zero => rfl
  | succ k ih =>
    rcases Nat.eq_zero_or_pos k with hk | hk
    · subst hk
      simp [VecState.appendN, VecState.EmplaceBack, VecState.mkEmpty, RawMemory.empty,
        RawMemory.create, RawMemory.Allocate, Nat.clog_one_right]
    · have hk0 : k ≠ 0 := by omega
      have hcap : (VecState.appendN k).storage.capacity = 2 ^ Nat.clog 2 k := by
        simpa [hk0] using ih
      have hlen : (VecState.appendN k).elems.length = k := appendN_length k
      have hle : k ≤ 2 ^ Nat.clog 2 k := Nat.le_pow_clog one_lt_two k
      simp only [VecState.appendN, VecState.EmplaceBack, hcap, hlen]
      by_cases hlt : k < 2 ^ Nat.clog 2 k
      · have h1 : Nat.clog 2 (k + 1) = Nat.clog 2 k := by
          refine le_antisymm ?_ (Nat.clog_mono_right 2 (Nat.le_succ k))
          exact (Nat.le_pow_iff_clog_le one_lt_two).mp hlt
        simp [hlt, h1, hcap]
      · have heq : k = 2 ^ Nat.clog 2 k := le_antisymm hle (Nat.not_lt.mp hlt)
        have hpos : 1 ≤ 2 ^ Nat.clog 2 k := Nat.one_le_two_pow
        have h1 : Nat.clog 2 (k + 1) = Nat.clog 2 k + 1 := by
          refine le_antisymm ?_ ?_
          · refine (Nat.le_pow_iff_clog_le one_lt_two).mp ?_
            rw [pow_succ]
            omega
          · by_contra hcon
            push_neg at hcon
            have hcon2 : Nat.clog 2 (k + 1) ≤ Nat.clog 2 k := by omega
            have := (Nat.le_pow_iff_clog_le one_lt_two).mpr hcon2
            omega
        simp [hlt, hk0, h1, RawMemory.create, RawMemory.Allocate, pow_succ]

/-- C8: appending repeatedly to the default empty vector (capacity 0)
gives capacities exactly 0, 1, 2, 4, 8, ...: after n appends the
capacity is 2 ^ ceil(log2 n) for n >= 1 (0 for n = 0); an append never
decreases the capacity, and capacity >= size holds after every
append. -/
theorem c8_growth_doubling (n : Nat) :
    (VecState.appendN n).storage.capacity = (if n = 0 then 0 else 2 ^ Nat.clog 2 n) ∧
      (VecState.appendN n).storage.capacity ≤ (VecState.appendN (n + 1)).storage.capacity ∧
      (VecState.appendN n).elems.length ≤ (VecState.appendN n).storage.capacity := by
  refine ⟨appendN_capacity n, ?_, ?_⟩
  · rw [appendN_capacity n, appendN_capacity (n + 1)]
    rcases Nat.eq_zero_or_pos n with h | h
    · subst h; simp
    · have h0 : n ≠ 0 := by omega
      simp only [h0, if_false, Nat.succ_ne_zero]
      exact Nat.pow_le_pow_right (by omega) (Nat.clog_mono_right 2 (Nat.le_succ n))
  · rw [appendN_length, appendN_capacity]
    rcases Nat.eq_zero_or_pos n with h | h
    · subst h; simp
    · have h0 : n ≠ 0 := by omega
      simpa [h0] using Nat.le_pow_clog one_lt_two n

/-- C10: sized construction of length n allocates capacity exactly n
and copy construction allocates capacity exactly the source size; the
allocation address is null exactly when the requested slot count is 0,
so Vector(0) and copying an empty vector allocate nothing. -/
theorem c10_construction_capacity (n : Nat) (v : VecState) :
    (VecState.mkSized n).storage.capacity = n ∧
      (VecState.mkSized n).elems.length = n ∧
      (VecState.copyCtor v).storage.capacity = v.elems.length ∧
      (VecState.copyCtor v).elems = v.elems ∧
      (VecState.mkSized n).storage.addr =
        (if n = 0 then none else some n) ∧
      (VecState.copyCtor v).storage.addr =
        (if v.elems.length = 0 then none else some v.elems.length) := by
  refine ⟨rfl, by simp [VecState.mkSized], rfl, rfl, ?_, ?_⟩ <;>
    simp [VecState.mkSized, VecState.copyCtor, RawMemory.create, RawMemory.Allocate]

end CppVec
